import Mathlib

/-!
Verification of `django-modeltree` (`src/modeltree/modeltree.py`) against its
natural-language specification.

The embedding below translates the relevant parts of the source into Lean:

* Django's relation metadata (model classes and their relation fields, as
  consumed by the library) becomes explicit data (`Field`, `ModelInfo`,
  `Schema`).  Python object identity of field objects is modelled by a
  numeric id `fid`; `field.remote_field` stores the id of the mirror field.
* The `ModelTree` class attributes (`MAX_DEPTH`, `FOLLOW_ACROSS_APPS`, ...)
  become a `Config` record.  Python `None`-or-list attributes whose use sites
  only test truthiness (`FIELD_PATHS`, `MODELS`) are modelled as plain lists,
  the empty list playing the role of both `None` and `[]` (they behave
  identically in the source).
* The recursive `_build_tree` is embedded as a structurally recursive
  function over a fuel argument; the entry point passes
  `fuel = MAX_DEPTH`, which satisfies the invariant `MAX_DEPTH ≤ fuel + depth`
  under which the fuel never runs out (the `fuel = 0` branch is dead code,
  see `build_tree`).
* The lazy, memoising `items` property is embedded as explicit state passing
  (`ItemsState`, `items_read`), with a fetch counter per node so that the
  "at most one database hit per node" guarantee can be stated.
-/

namespace Modeltree

/-- Concrete Django field classes as listed in the module-level `FIELD_TYPES`
constant, plus a catch-all for any other (e.g. non-relational) field class.
Python's `type(field) in self.FIELD_TYPES` becomes membership of this tag. -/
inductive FieldType where
  | OneToOneField
  | OneToOneRel
  | ForeignKey
  | ManyToOneRel
  | ManyToManyField
  | ManyToManyRel
  | OtherField
deriving DecidableEq, Repr

/-- The four relation-type flags named by the module-level `RELATION_TYPES`
constant; `getattr(field, t)` for `t` in that list reads one of the four
boolean attributes of the field. -/
inductive RelType where
  | one_to_one
  | one_to_many
  | many_to_one
  | many_to_many
deriving DecidableEq, Repr

/-- A Django model field as consumed by the library.  `fid` models Python
object identity of the field instance; `remote_field` holds the `fid` of the
mirror field object (`field.remote_field`), `none` for non-relation fields.
`related_model` is the id of the model on the other end (`none` models
Python `None` for generic relations). -/
structure Field where
  fid : Nat
  name : String
  is_relation : Bool
  remote_field : Option Nat
  related_model : Option Nat
  one_to_one : Bool
  one_to_many : Bool
  many_to_one : Bool
  many_to_many : Bool
  ftype : FieldType
deriving DecidableEq, Repr

/-- Reads the relation-type flag attribute named by `t`
(`getattr(field, t)` for `t` in `RELATION_TYPES`). -/
def Field.relAttr (f : Field) : RelType → Bool
  | .one_to_one => f.one_to_one
  | .one_to_many => f.one_to_many
  | .many_to_one => f.many_to_one
  | .many_to_many => f.many_to_many

/-- Whether the field is a reverse-side (non-owning) accessor, i.e. an
instance of one of Django's `ForeignObjectRel` subclasses. -/
def Field.isReverseSide (f : Field) : Bool :=
  match f.ftype with
  | .OneToOneRel | .ManyToOneRel | .ManyToManyRel => true
  | _ => false

/-- A Django model class: id (object identity), `_meta.app_label`, and the
ordered result of `_meta.get_fields()`. -/
structure ModelInfo where
  mid : Nat
  app_label : String
  fields : List Field
deriving DecidableEq, Repr

/-- The relation metadata of all installed models, as Django exposes it. -/
structure Schema where
  models : List ModelInfo
deriving DecidableEq, Repr

def Schema.getModel (s : Schema) (mid : Nat) : Option ModelInfo :=
  s.models.find? (fun m => m.mid == mid)

/-- Looks up `model._meta.get_fields()`.  For model ids mirroring real Django
apps the lookup always succeeds; the `[]` default is unreachable there. -/
def Schema.modelFields (s : Schema) (mid : Nat) : List Field :=
  (s.getModel mid).elim [] (fun m => m.fields)

/-- Looks up `model._meta.app_label` (with an unreachable `""` default, as in
`Schema.modelFields`). -/
def Schema.appLabel (s : Schema) (mid : Nat) : String :=
  (s.getModel mid).elim "" (fun m => m.app_label)

/-- Every field of every installed model. -/
def Schema.allFields (s : Schema) : List Field :=
  s.models.flatMap (fun m => m.fields)

/-- Looks up a field's `name` by its object id (used for
`self.field.remote_field.name` in the `items` property). -/
def Schema.fieldName (s : Schema) (fid : Nat) : String :=
  (s.allFields.find? (fun f => f.fid == fid)).elim "" (fun f => f.name)

/-- Module-level constant `RELATION_TYPES` of `modeltree.py`. -/
def RELATION_TYPES : List RelType :=
  [.one_to_one, .one_to_many, .many_to_one, .many_to_many]

/-- Module-level constant `FIELD_TYPES` of `modeltree.py`. -/
def FIELD_TYPES : List FieldType :=
  [.OneToOneField, .OneToOneRel, .ForeignKey, .ManyToOneRel,
   .ManyToManyField, .ManyToManyRel]

/-- The overridable class attributes of `ModelTree`, plus the overridable
`_follow` hook.  `FIELD_PATHS`/`MODELS` default to Python `None`, but every
use site only tests truthiness, so `None` and `[]` are indistinguishable and
both are modelled by the empty list. -/
structure Config where
  MAX_DEPTH : Nat
  FOLLOW_ACROSS_APPS : Bool
  RELATION_TYPES : List RelType
  FIELD_TYPES : List FieldType
  FIELD_PATHS : List String
  MODELS : List Nat
  follow : Field → Bool

namespace ModelTree

/-- Python `str.strip('_')`: removes leading and trailing underscores. -/
def strip_underscores (s : String) : String :=
  String.mk (((s.data.dropWhile (fun c => c == '_')).reverse.dropWhile
    (fun c => c == '_')).reverse)

/-- The `field_path` property: `'root'` for the root node, otherwise the
incoming field names along the path joined with `'__'`.  `names` is the list
of `n.field.name` for the nodes of `self.path[1:]`; it is empty exactly for
the root node. -/
def fieldPathOf (names : List String) : String :=
  if names.isEmpty then "root" else "__".intercalate names

/-- Python `str.split('__')` over the character list: split greedily at each
(non-overlapping, leftmost-first) occurrence of the two-character separator
`'__'`.  `acc` holds the current chunk in reverse. -/
def py_split_dunder_aux : List Char → List Char → List (List Char)
  | [], acc => [acc.reverse]
  | '_' :: '_' :: rest, acc => acc.reverse :: py_split_dunder_aux rest []
  | c :: rest, acc => py_split_dunder_aux rest (c :: acc)

/-- Python `path.split('__')` (the separator is non-empty, so Python's
whitespace-splitting special case does not apply; the result is never the
empty list, and `''.split('__') == ['']`). -/
def py_split_dunder (s : String) : List String :=
  (py_split_dunder_aux s.data []).map String.mk

/-- The prefix expansion performed inside `_follow_this_path` for one entry
of `FIELD_PATHS`: `splitted = path.split('__')`, then
`'__'.join(splitted[:i+1])` for each `i in range(len(splitted))`. -/
def path_expansion (path : String) : List String :=
  let splitted := py_split_dunder path
  (List.range splitted.length).map (fun i => "__".intercalate (splitted.take (i + 1)))

/-- The `allowed_paths` set built by `_follow_this_path` (modelled as a list;
only membership is ever used). -/
def allowed_paths (FIELD_PATHS : List String) : List String :=
  FIELD_PATHS.flatMap path_expansion

/-- The `this_path` computed by `_follow_this_path` for a candidate `field`:
`field.name` when the current node is the root, otherwise
`'__'.join([self.field_path, field.name]).strip('_')`. -/
def this_path (is_root : Bool) (field_path : String) (field : Field) : String :=
  if is_root then field.name
  else strip_underscores (field_path ++ "__" ++ field.name)

/-- Embeds `ModelTree._follow_this_path`. -/
def follow_this_path (cfg : Config) (is_root : Bool) (field_path : String)
    (field : Field) : Bool :=
  (allowed_paths cfg.FIELD_PATHS).contains (this_path is_root field_path field)

/-- Embeds `ModelTree._follow_this_field`.  `model` is `self.model`,
`node_field` is the id of `self.field` (`none` for the root), `is_root` is
`self.is_root` and `field_path` is `self.field_path`.  The `elif` chain of
the source is mirrored clause for clause; `not field.related_model` is only
true in Python when `related_model` is `None` (classes are always truthy). -/
def follow_this_field (cfg : Config) (schema : Schema) (model : Nat)
    (node_field : Option Nat) (is_root : Bool) (field_path : String)
    (field : Field) : Bool :=
  if !field.is_relation then false
  else if field.remote_field == node_field then false
  else
    match field.related_model with
    | none => false
    | some rm =>
      if schema.appLabel rm == "contenttypes" then false
      else if !cfg.FOLLOW_ACROSS_APPS
              && !(schema.appLabel rm == schema.appLabel model) then false
      else if !(cfg.RELATION_TYPES.any (fun t => field.relAttr t)) then false
      else if !(cfg.FIELD_TYPES.contains field.ftype) then false
      else if !cfg.FIELD_PATHS.isEmpty
              && !(follow_this_path cfg is_root field_path field) then false
      else if !cfg.MODELS.isEmpty && !(cfg.MODELS.contains rm) then false
      else if !(cfg.follow field) then false
      else true

end ModelTree

/-- A tree node: `model`, the incoming `field` (`none` for the root), the
incoming field names from the root (`names`, empty iff root — this is the
data the `field_path` property reads off `self.path[1:]`), the node's
`depth`, and the child nodes in declaration order of the followed fields. -/
inductive Node where
  | mk : Nat → Option Field → List String → Nat → List Node → Node

def Node.model : Node → Nat
  | .mk m _ _ _ _ => m

def Node.field : Node → Option Field
  | .mk _ f _ _ _ => f

def Node.names : Node → List String
  | .mk _ _ ns _ _ => ns

def Node.depth : Node → Nat
  | .mk _ _ _ d _ => d

def Node.children : Node → List Node
  | .mk _ _ _ _ cs => cs

/-- The `field_path` property of a node. -/
def Node.field_path (n : Node) : String :=
  ModelTree.fieldPathOf n.names

mutual
/-- All nodes of the subtree in pre-order (the node itself first, then the
subtrees of its children in order).  This is the iteration order of
anytree's `PreOrderIter`, which `anytree.search.findall` uses. -/
def Node.allNodes : Node → List Node
  | .mk m f ns d cs => .mk m f ns d cs :: allNodesList cs

def allNodesList : List Node → List Node
  | [] => []
  | c :: rest => c.allNodes ++ allNodesList rest
end

/-- Navigates from a node along a list of child indices. -/
def Node.at? : Node → List Nat → Option Node
  | n, [] => some n
  | n, i :: rest =>
    match n.children[i]? with
    | some c => c.at? rest
    | none => none

mutual
/-- Boolean structural equality of nodes (`deriving` does not handle the
nested inductive, so the instance is spelled out). -/
def Node.beq : Node → Node → Bool
  | .mk m1 f1 ns1 d1 cs1, .mk m2 f2 ns2 d2 cs2 =>
    m1 == m2 && f1 == f2 && ns1 == ns2 && d1 == d2 && beqNodeList cs1 cs2

def beqNodeList : List Node → List Node → Bool
  | [], [] => true
  | a :: as, b :: bs => Node.beq a b && beqNodeList as bs
  | _, _ => false
end

namespace ModelTree

/-- Embeds `__init__`/`_build_tree`: a node stores its model, incoming field
and depth and, when `self.depth < self.MAX_DEPTH`, builds one child per
field of `self.model._meta.get_fields()` accepted by `_follow_this_field`.
Structural recursion over `fuel`; under the invariant
`cfg.MAX_DEPTH ≤ fuel + depth` (established by `ModelTree.init`) the
`fuel = 0` branch is unreachable, because the recursion only continues while
`depth < cfg.MAX_DEPTH`.  The `getD 0` default for the child's model is
likewise unreachable: `follow_this_field` rejects every field whose
`related_model` is `none`. -/
def build_tree (cfg : Config) (schema : Schema) :
    (fuel : Nat) → (model : Nat) → (field : Option Field) →
    (names : List String) → (depth : Nat) → Node
  | fuel, model, field, names, depth =>
    Node.mk model field names depth
      (if depth < cfg.MAX_DEPTH then
        match fuel with
        | 0 => []
        | fuel' + 1 =>
          ((schema.modelFields model).filter
            (follow_this_field cfg schema model (field.map (fun f => f.fid))
              names.isEmpty (fieldPathOf names))).map
            (fun g =>
              build_tree cfg schema fuel' (g.related_model.getD 0) (some g)
                (names ++ [g.name]) (depth + 1))
      else [])

/-- Embeds `ModelTree(model)`: the whole tree rooted at `model`. -/
def init (cfg : Config) (schema : Schema) (model : Nat) : Node :=
  build_tree cfg schema cfg.MAX_DEPTH model none [] 0

end ModelTree

namespace AnyTree

/-- Models `anytree.search.findall(node, filter_)` (with its default
arguments, as called by `ModelTree.find`): all nodes of the subtree, in
`PreOrderIter` order, satisfying the filter. -/
def findall (t : Node) (p : Node → Bool) : List Node :=
  t.allNodes.filter p

/-- The result of `anytree.search.find`: the matching node, `None` when
nothing matches, or a raised `anytree.search.CountError` when more than one
node matches (`find` is `findall` with `maxcount=1`). -/
inductive FindResult where
  | notFound
  | found (n : Node)
  | countError

/-- Models `anytree.search.find(node, filter_)` as called by
`ModelTree.get`. -/
def find (t : Node) (p : Node → Bool) : FindResult :=
  match findall t p with
  | [] => .notFound
  | [n] => .found n
  | _ :: _ :: _ => .countError

/-- The `field_path` of a found node (used to state concrete results without
needing decidable equality of whole nodes). -/
def FindResult.pathOf : FindResult → Option String
  | .found n => some n.field_path
  | _ => none

/-- The `model` of a found node. -/
def FindResult.modelOf : FindResult → Option Nat
  | .found n => some n.model
  | _ => none

def FindResult.isCountError : FindResult → Bool
  | .countError => true
  | _ => false

def FindResult.isNotFound : FindResult → Bool
  | .notFound => true
  | _ => false

end AnyTree

namespace ModelTree

/-- The node attributes used as `**params` keyword lookups in
`ModelTree.get`/`ModelTree.find` (`getattr(n, key)`). -/
inductive Attr where
  | model
  | field
  | field_path
  | depth
deriving DecidableEq, Repr

/-- The values such attributes evaluate to. -/
inductive AttrVal where
  | mid (m : Nat)
  | fld (f : Option Field)
  | str (s : String)
  | nat (k : Nat)
deriving DecidableEq, Repr

/-- Models `getattr(n, key)` for the attributes of `Attr`. -/
def getattr (n : Node) : Attr → AttrVal
  | .model => .mid n.model
  | .field => .fld n.field
  | .field_path => .str n.field_path
  | .depth => .nat n.depth

/-- Embeds the filter built by the shared loop of `ModelTree.get` and
`ModelTree.find`:

    filters = list()
    for key, value in params.items():
        filters.append(lambda n: getattr(n, key) == value)
    if filter:
        filters.append(filter)
    filter = lambda n: all(f(n) for f in filters)

The appended lambdas close over the loop variables `key` and `value` by
reference.  They are only called after the loop has finished (inside
anytree's search), at which point `key`/`value` hold the values of the LAST
pair of `params`, so every appended lambda tests the last pair.  This Python
late-binding behaviour is embedded faithfully via `params.getLast?` (the
`none` branch is unreachable: the map runs over a non-empty list exactly
when `getLast?` is `some`). -/
def paramsFilter (params : List (Attr × AttrVal)) (filter : Option (Node → Bool))
    (n : Node) : Bool :=
  let lambdas : List (Node → Bool) :=
    params.map (fun _ => fun n =>
      match params.getLast? with
      | some kv => getattr n kv.1 == kv.2
      | none => true)
  let filters := lambdas ++ (match filter with | some f => [f] | none => [])
  filters.all (fun f => f n)

/-- Embeds `ModelTree.get`.  A non-empty `field_path` string is truthy in
Python, so it replaces the filter entirely; `None` or `''` fall through to
the params/filter branch. -/
def get (t : Node) (field_path : Option String) (filter : Option (Node → Bool))
    (params : List (Attr × AttrVal)) : AnyTree.FindResult :=
  match field_path with
  | some fp =>
    if fp == "" then AnyTree.find t (paramsFilter params filter)
    else AnyTree.find t (fun n => n.field_path == fp)
  | none => AnyTree.find t (paramsFilter params filter)

/-- Embeds `ModelTree.find` (returns the tuple of all matches). -/
def find (t : Node) (filter : Option (Node → Bool))
    (params : List (Attr × AttrVal)) : List Node :=
  AnyTree.findall t (paramsFilter params filter)

end ModelTree

/-- The external relational store, as used by the `items` property: one call
`self.model.objects.filter(**{query: item_ids}).distinct()`, taking the
model, the keyword `query` string (`remote_field.name + '__pk__in'`) and the
list of parent item primary keys.  Records are modelled by their primary
keys. -/
structure Store where
  filter_distinct : Nat → String → List Nat → List Nat

/-- The mutable state of the lazily memoised `items` property, per node.
Nodes are addressed by their reversed child-index path (`[]` is the root,
`i :: r` is child `i` of the node addressed by `r`), so that a node's parent
address is just the tail.  `cache a = none` models `node._items is None`;
`fetches a` counts the store calls made on behalf of node `a` (for the
"at most one database hit per node" guarantee). -/
structure ItemsState where
  cache : List Nat → Option (List Nat)
  fetches : List Nat → Nat

/-- The state right after `ModelTree.__init__`: the root's `_items` is the
queryset passed in (or `None`), every other node's `_items` is `None`. -/
def ItemsState.init (items : Option (List Nat)) : ItemsState :=
  { cache := fun a => if a = [] then items else none
    fetches := fun _ => 0 }

/-- The assignment `self._items = ...` performed by the `items` property on
the node addressed by `raddr`, bumping that node's fetch counter. -/
def ItemsState.store_result (s : ItemsState) (raddr : List Nat) (v : List Nat) :
    ItemsState :=
  { cache := fun a => if a = raddr then some v else s.cache a
    fetches := fun a => if a = raddr then s.fetches a + 1 else s.fetches a }

/-- Embeds one access of the `items` property of the node addressed by
`raddr` (reversed child-index path):

    if self._items is None and not self.root._items is None:
        query = self.field.remote_field.name + '__pk__in'
        item_ids = [i.pk for i in self.parent.items.all()]
        self._items = self.model.objects.filter(**{query: item_ids}).distinct()
    return self._items

Reading `self.parent.items` recursively resolves the parent first.  The
`raddr = []` case inside the guarded branch is unreachable (for the root the
guard contradicts itself), as is the `getD`/`none` default when reading the
field's mirror name (a non-root node of a built tree always has a relation
field, whose `remote_field` is set).  Addresses that do not exist in the
tree cannot be accessed in Python at all; here they just return the cache
unchanged. -/
def items_read (store : Store) (schema : Schema) (tree : Node) :
    (raddr : List Nat) → ItemsState → Option (List Nat) × ItemsState
  | raddr, s =>
    match tree.at? raddr.reverse with
    | none => (s.cache raddr, s)
    | some node =>
      if s.cache raddr = none ∧ ¬ s.cache [] = none then
        match raddr with
        | [] => (s.cache ([] : List Nat), s)
        | i :: parent =>
          let p := items_read store schema tree parent s
          let query :=
            (match node.field with
             | some f => schema.fieldName (f.remote_field.getD 0)
             | none => "") ++ "__pk__in"
          let item_ids := p.1.getD []
          let v := store.filter_distinct node.model query item_ids
          (some v, p.2.store_result (i :: parent) v)
      else (s.cache raddr, s)

/-- Runs a sequence of `items` accesses (any nodes, any order), threading the
state. -/
def runReads (store : Store) (schema : Schema) (tree : Node) :
    List (List Nat) → ItemsState → ItemsState
  | [], s => s
  | a :: rest, s => runReads store schema tree rest (items_read store schema tree a s).2

/-- The default `ModelTree` class attributes (with the default, always-true
`_follow` hook). -/
def default_config : Config :=
  { MAX_DEPTH := 3
    FOLLOW_ACROSS_APPS := false
    RELATION_TYPES := RELATION_TYPES
    FIELD_TYPES := FIELD_TYPES
    FIELD_PATHS := []
    MODELS := []
    follow := fun _ => true }

/-- The documentation models of the repository (`ModelOne` … `ModelFive`,
with `ModelOne.model_two : ManyToManyField → ModelTwo`,
`ModelTwo.model_three : ForeignKey → ModelThree`,
`ModelFour.model_three : OneToOneField → ModelThree`,
`ModelFive.model_two : ManyToManyField → ModelThree`), including the reverse
accessors Django adds to `get_fields()` and `ModelOne`'s non-relational `id`
field.  Model ids 1–5 stand for `ModelOne` … `ModelFive`. -/
def docSchema : Schema :=
  { models :=
    [ { mid := 1, app_label := "testapp", fields :=
        [ { fid := 100, name := "id", is_relation := false, remote_field := none,
            related_model := none, one_to_one := false, one_to_many := false,
            many_to_one := false, many_to_many := false, ftype := .OtherField }
        , { fid := 1, name := "model_two", is_relation := true, remote_field := some 2,
            related_model := some 2, one_to_one := false, one_to_many := false,
            many_to_one := false, many_to_many := true, ftype := .ManyToManyField } ] }
    , { mid := 2, app_label := "testapp", fields :=
        [ { fid := 2, name := "model_one", is_relation := true, remote_field := some 1,
            related_model := some 1, one_to_one := false, one_to_many := false,
            many_to_one := false, many_to_many := true, ftype := .ManyToManyRel }
        , { fid := 3, name := "model_three", is_relation := true, remote_field := some 4,
            related_model := some 3, one_to_one := false, one_to_many := false,
            many_to_one := true, many_to_many := false, ftype := .ForeignKey } ] }
    , { mid := 3, app_label := "testapp", fields :=
        [ { fid := 4, name := "model_two", is_relation := true, remote_field := some 3,
            related_model := some 2, one_to_one := false, one_to_many := true,
            many_to_one := false, many_to_many := false, ftype := .ManyToOneRel }
        , { fid := 6, name := "model_four", is_relation := true, remote_field := some 5,
            related_model := some 4, one_to_one := true, one_to_many := false,
            many_to_one := false, many_to_many := false, ftype := .OneToOneRel }
        , { fid := 8, name := "model_five", is_relation := true, remote_field := some 7,
            related_model := some 5, one_to_one := false, one_to_many := false,
            many_to_one := false, many_to_many := true, ftype := .ManyToManyRel } ] }
    , { mid := 4, app_label := "testapp", fields :=
        [ { fid := 5, name := "model_three", is_relation := true, remote_field := some 6,
            related_model := some 3, one_to_one := true, one_to_many := false,
            many_to_one := false, many_to_many := false, ftype := .OneToOneField } ] }
    , { mid := 5, app_label := "testapp", fields :=
        [ { fid := 7, name := "model_two", is_relation := true, remote_field := some 8,
            related_model := some 3, one_to_one := false, one_to_many := false,
            many_to_one := false, many_to_many := true, ftype := .ManyToManyField } ] } ] }

/-- `ModelTree(ModelOne)` over the documentation models. -/
def docTree : Node := ModelTree.init default_config docSchema 1

/-- A perfectly legal Django layout in which one model has a `ForeignKey`
named `root` (Django has no check against that name): model 0 declares
`root : ForeignKey → model 1`. -/
def rootFieldSchema : Schema :=
  { models :=
    [ { mid := 0, app_label := "app", fields :=
        [ { fid := 0, name := "root", is_relation := true, remote_field := some 1,
            related_model := some 1, one_to_one := false, one_to_many := false,
            many_to_one := true, many_to_many := false, ftype := .ForeignKey } ] }
    , { mid := 1, app_label := "app", fields :=
        [ { fid := 1, name := "m0s", is_relation := true, remote_field := some 0,
            related_model := some 0, one_to_one := false, one_to_many := true,
            many_to_one := false, many_to_many := false, ftype := .ManyToOneRel } ] } ] }

def rootFieldTree : Node := ModelTree.init default_config rootFieldSchema 0

/-- A model with a self-referential `OneToOneField` (like `ModelB.model_b`
in the repository's test app): the forward field `model_b` and the reverse
accessor `modelb` Django adds for it, both relating model 0 to itself. -/
def selfRelSchema : Schema :=
  { models :=
    [ { mid := 0, app_label := "app", fields :=
        [ { fid := 0, name := "model_b", is_relation := true, remote_field := some 1,
            related_model := some 0, one_to_one := true, one_to_many := false,
            many_to_one := false, many_to_many := false, ftype := .OneToOneField }
        , { fid := 1, name := "modelb", is_relation := true, remote_field := some 0,
            related_model := some 0, one_to_one := true, one_to_many := false,
            many_to_one := false, many_to_many := false, ftype := .OneToOneRel } ] } ] }

def selfRelTree : Node :=
  ModelTree.init { default_config with MAX_DEPTH := 1 } selfRelSchema 0

/-- A chain `0 --a--> 1 --b--> 2 --c--> 3` with an extra sibling relation at
every hop (`x`, `y`, `d`) and the reverse accessors, for exercising the
`FIELD_PATHS` allow-list. -/
def abcSchema : Schema :=
  { models :=
    [ { mid := 0, app_label := "app", fields :=
        [ { fid := 10, name := "a", is_relation := true, remote_field := some 11,
            related_model := some 1, one_to_one := false, one_to_many := false,
            many_to_one := true, many_to_many := false, ftype := .ForeignKey }
        , { fid := 20, name := "x", is_relation := true, remote_field := some 21,
            related_model := some 1, one_to_one := false, one_to_many := false,
            many_to_one := true, many_to_many := false, ftype := .ForeignKey } ] }
    , { mid := 1, app_label := "app", fields :=
        [ { fid := 11, name := "m0a", is_relation := true, remote_field := some 10,
            related_model := some 0, one_to_one := false, one_to_many := true,
            many_to_one := false, many_to_many := false, ftype := .ManyToOneRel }
        , { fid := 21, name := "m0x", is_relation := true, remote_field := some 20,
            related_model := some 0, one_to_one := false, one_to_many := true,
            many_to_one := false, many_to_many := false, ftype := .ManyToOneRel }
        , { fid := 12, name := "b", is_relation := true, remote_field := some 13,
            related_model := some 2, one_to_one := false, one_to_many := false,
            many_to_one := true, many_to_many := false, ftype := .ForeignKey }
        , { fid := 22, name := "y", is_relation := true, remote_field := some 23,
            related_model := some 2, one_to_one := false, one_to_many := false,
            many_to_one := true, many_to_many := false, ftype := .ForeignKey } ] }
    , { mid := 2, app_label := "app", fields :=
        [ { fid := 13, name := "m1b", is_relation := true, remote_field := some 12,
            related_model := some 1, one_to_one := false, one_to_many := true,
            many_to_one := false, many_to_many := false, ftype := .ManyToOneRel }
        , { fid := 23, name := "m1y", is_relation := true, remote_field := some 22,
            related_model := some 1, one_to_one := false, one_to_many := true,
            many_to_one := false, many_to_many := false, ftype := .ManyToOneRel }
        , { fid := 14, name := "c", is_relation := true, remote_field := some 15,
            related_model := some 3, one_to_one := false, one_to_many := false,
            many_to_one := true, many_to_many := false, ftype := .ForeignKey }
        , { fid := 24, name := "d", is_relation := true, remote_field := some 25,
            related_model := some 3, one_to_one := false, one_to_many := false,
            many_to_one := true, many_to_many := false, ftype := .ForeignKey } ] }
    , { mid := 3, app_label := "app", fields :=
        [ { fid := 15, name := "m2c", is_relation := true, remote_field := some 14,
            related_model := some 2, one_to_one := false, one_to_many := true,
            many_to_one := false, many_to_many := false, ftype := .ManyToOneRel }
        , { fid := 25, name := "m2d", is_relation := true, remote_field := some 24,
            related_model := some 2, one_to_one := false, one_to_many := true,
            many_to_one := false, many_to_many := false, ftype := .ManyToOneRel } ] } ] }

def abcConfig : Config := { default_config with FIELD_PATHS := ["a__b__c"] }

def abcTree : Node := ModelTree.init abcConfig abcSchema 0

/-! ### Decidable equality of nodes, and sanity checks of the embedding -/

mutual
theorem Node.beq_iff : ∀ a b : Node, Node.beq a b = true ↔ a = b
  | .mk m1 f1 ns1 d1 cs1, .mk m2 f2 ns2 d2 cs2 => by
    simp [Node.beq, Bool.and_eq_true, beq_iff_eq, beqNodeList_iff cs1 cs2,
      Node.mk.injEq, and_assoc]

theorem beqNodeList_iff : ∀ as bs : List Node, beqNodeList as bs = true ↔ as = bs
  | [], [] => by simp [beqNodeList]
  | [], _ :: _ => by simp [beqNodeList]
  | _ :: _, [] => by simp [beqNodeList]
  | a :: as, b :: bs => by
    simp [beqNodeList, Bool.and_eq_true, Node.beq_iff a b, beqNodeList_iff as bs]
end

instance : DecidableEq Node := fun a b => decidable_of_iff _ (Node.beq_iff a b)

deriving instance DecidableEq for AnyTree.FindResult

theorem sanity_docTree_field_paths : docTree.allNodes.map Node.field_path =
    ["root", "model_two", "model_two__model_three",
     "model_two__model_three__model_four",
     "model_two__model_three__model_five"] := by decide

theorem sanity_docTree_models : docTree.allNodes.map Node.model = [1, 2, 3, 4, 5] := by decide

theorem sanity_docTree_depths : docTree.allNodes.map Node.depth = [0, 1, 2, 3, 3] := by decide

theorem sanity_rootFieldTree_paths : rootFieldTree.allNodes.map Node.field_path = ["root", "root"] := by decide

theorem sanity_selfRelTree_paths : selfRelTree.children.map (fun c => c.field_path) = ["model_b", "modelb"] := by decide

theorem sanity_selfRelTree_reverse : selfRelTree.children.map
    (fun c => (c.field.map Field.isReverseSide).getD false) = [false, true] := by decide

theorem sanity_abcTree_paths : abcTree.allNodes.map Node.field_path = ["root", "a", "a__b", "a__b__c"] := by decide

/-! ### Structural lemmas about the tree builder -/

theorem Node.allNodes_eq (n : Node) :
    n.allNodes = n :: allNodesList n.children := by
  cases n; rfl

theorem mem_allNodesList {l : List Node} {n : Node} :
    n ∈ allNodesList l ↔ ∃ c ∈ l, n ∈ c.allNodes := by
  induction l with
  | nil => simp [allNodesList]
  | cons c rest ih => simp [allNodesList, ih]

namespace ModelTree

theorem build_tree_model (cfg : Config) (schema : Schema) (fuel m : Nat)
    (f : Option Field) (ns : List String) (d : Nat) :
    (build_tree cfg schema fuel m f ns d).model = m := by
  cases fuel <;> rfl

theorem build_tree_field (cfg : Config) (schema : Schema) (fuel m : Nat)
    (f : Option Field) (ns : List String) (d : Nat) :
    (build_tree cfg schema fuel m f ns d).field = f := by
  cases fuel <;> rfl

theorem build_tree_names (cfg : Config) (schema : Schema) (fuel m : Nat)
    (f : Option Field) (ns : List String) (d : Nat) :
    (build_tree cfg schema fuel m f ns d).names = ns := by
  cases fuel <;> rfl

theorem build_tree_depth (cfg : Config) (schema : Schema) (fuel m : Nat)
    (f : Option Field) (ns : List String) (d : Nat) :
    (build_tree cfg schema fuel m f ns d).depth = d := by
  cases fuel <;> rfl

theorem build_tree_children_stop (cfg : Config) (schema : Schema) (fuel m : Nat)
    (f : Option Field) (ns : List String) (d : Nat) (h : ¬ d < cfg.MAX_DEPTH) :
    (build_tree cfg schema fuel m f ns d).children = [] := by
  cases fuel <;> simp [build_tree, Node.children, h]

theorem build_tree_children_go (cfg : Config) (schema : Schema) (fuel m : Nat)
    (f : Option Field) (ns : List String) (d : Nat) (h : d < cfg.MAX_DEPTH) :
    (build_tree cfg schema (fuel + 1) m f ns d).children =
      ((schema.modelFields m).filter
        (follow_this_field cfg schema m (f.map (fun x => x.fid)) ns.isEmpty
          (fieldPathOf ns))).map
        (fun g => build_tree cfg schema fuel (g.related_model.getD 0) (some g)
          (ns ++ [g.name]) (d + 1)) := by
  simp [build_tree, Node.children, h]

theorem mem_allFields_of_mem_modelFields (schema : Schema) {g : Field} {m : Nat}
    (h : g ∈ schema.modelFields m) : g ∈ schema.allFields := by
  unfold Schema.modelFields at h
  cases hm : schema.getModel m with
  | none => rw [hm] at h; simp at h
  | some mi =>
    rw [hm] at h
    simp only [Option.elim] at h
    have hmem : mi ∈ schema.models := List.mem_of_find?_eq_some hm
    unfold Schema.allFields
    exact List.mem_flatMap.mpr ⟨mi, hmem, h⟩

/-- Every node of a built tree is itself the result of `build_tree` at its
own depth, with the fuel invariant maintained; moreover it either is the
root of the subtree one started from, or carries an incoming field that is a
field of some schema model. -/
theorem mem_allNodes_build (cfg : Config) (schema : Schema) :
    ∀ (fuel m : Nat) (f : Option Field) (ns : List String) (d : Nat),
      cfg.MAX_DEPTH ≤ fuel + d →
      ∀ n ∈ (build_tree cfg schema fuel m f ns d).allNodes,
      ∃ fuel' m' f' ns' d',
        n = build_tree cfg schema fuel' m' f' ns' d' ∧
        cfg.MAX_DEPTH ≤ fuel' + d' ∧ d ≤ d' ∧ d' ≤ max cfg.MAX_DEPTH d ∧
        ((f' = f ∧ ns' = ns ∧ m' = m ∧ d' = d) ∨
          (∃ g, f' = some g ∧ g ∈ schema.allFields)) := by
  intro fuel
  induction fuel with
  | zero =>
    intro m f ns d hfd n hn
    have hch : (build_tree cfg schema 0 m f ns d).children = [] := by
      by_cases h : d < cfg.MAX_DEPTH
      · simp [build_tree, Node.children, h]
      · exact build_tree_children_stop cfg schema 0 m f ns d h
    rw [Node.allNodes_eq, hch] at hn
    simp [allNodesList] at hn
    exact ⟨0, m, f, ns, d, hn, hfd, le_refl d, le_max_right _ _,
      Or.inl ⟨rfl, rfl, rfl, rfl⟩⟩
  | succ fuel ih =>
    intro m f ns d hfd n hn
    rw [Node.allNodes_eq] at hn
    rcases List.mem_cons.mp hn with hroot | hsub
    · exact ⟨fuel + 1, m, f, ns, d, hroot, hfd, le_refl d, le_max_right _ _,
        Or.inl ⟨rfl, rfl, rfl, rfl⟩⟩
    · by_cases hd : d < cfg.MAX_DEPTH
      · rw [build_tree_children_go cfg schema fuel m f ns d hd] at hsub
        rcases mem_allNodesList.mp hsub with ⟨c, hc, hnc⟩
        rcases List.mem_map.mp hc with ⟨g, hg, rfl⟩
        have hg' : g ∈ schema.modelFields m := List.mem_of_mem_filter hg
        have hfd' : cfg.MAX_DEPTH ≤ fuel + (d + 1) := by omega
        rcases ih (g.related_model.getD 0) (some g) (ns ++ [g.name]) (d + 1) hfd' n hnc
          with ⟨fuel', m', f', ns', d', heq, hfd'', hd1, hdmax, hdisj⟩
        refine ⟨fuel', m', f', ns', d', heq, hfd'', by omega, by omega, ?_⟩
        rcases hdisj with ⟨hf', _, _, _⟩ | hin
        · exact Or.inr ⟨g, hf', mem_allFields_of_mem_modelFields schema hg'⟩
        · exact Or.inr hin
      · rw [build_tree_children_stop cfg schema (fuel + 1) m f ns d hd] at hsub
        simp [allNodesList] at hsub

/-- A child of a `build_tree` node (under the fuel invariant) comes from a
field of the node's model that `_follow_this_field` accepted, and is itself
built one level deeper. -/
theorem mem_children_build (cfg : Config) (schema : Schema) {fuel m : Nat}
    {f : Option Field} {ns : List String} {d : Nat}
    (hfd : cfg.MAX_DEPTH ≤ fuel + d) {c : Node}
    (hc : c ∈ (build_tree cfg schema fuel m f ns d).children) :
    ∃ g, g ∈ schema.modelFields m ∧
      follow_this_field cfg schema m (f.map (fun x => x.fid)) ns.isEmpty
        (fieldPathOf ns) g = true ∧
      c = build_tree cfg schema (fuel - 1) (g.related_model.getD 0) (some g)
        (ns ++ [g.name]) (d + 1) := by
  by_cases hd : d < cfg.MAX_DEPTH
  · cases fuel with
    | zero => omega
    | succ fuel =>
      rw [build_tree_children_go cfg schema fuel m f ns d hd] at hc
      rcases List.mem_map.mp hc with ⟨g, hg, rfl⟩
      exact ⟨g, List.mem_of_mem_filter hg, List.of_mem_filter hg, rfl⟩
  · rw [build_tree_children_stop cfg schema fuel m f ns d hd] at hc
    simp at hc

/-- Facts every accepted candidate field satisfies, read off the `elif`
chain of `_follow_this_field`: it is a relation field, it is not followed
back to its remote field, its related model is set, and (when a path
allow-list is configured) `_follow_this_path` accepted it. -/
theorem follow_this_field_spec {cfg : Config} {schema : Schema} {m : Nat}
    {nf : Option Nat} {is_root : Bool} {fp : String} {g : Field}
    (h : follow_this_field cfg schema m nf is_root fp g = true) :
    g.is_relation = true ∧ (g.remote_field == nf) = false ∧
    g.related_model ≠ none ∧
    (cfg.FIELD_PATHS ≠ [] → follow_this_path cfg is_root fp g = true) := by
  refine ⟨?_, ?_, ?_, ?_⟩
  · cases hrel : g.is_relation with
    | true => rfl
    | false => simp [follow_this_field, hrel] at h
  · cases hbe : (g.remote_field == nf) with
    | false => rfl
    | true => simp [follow_this_field, hbe] at h
  · intro hnone
    simp [follow_this_field, hnone] at h
  · intro hne
    cases hftp : follow_this_path cfg is_root fp g with
    | true => rfl
    | false =>
      exfalso
      have hFP : cfg.FIELD_PATHS.isEmpty = false := by
        cases hE : cfg.FIELD_PATHS with
        | nil => exact absurd hE hne
        | cons a l => rfl
      cases hrm : g.related_model with
      | none => simp [follow_this_field, hrm] at h
      | some rm => simp [follow_this_field, hrm, hftp, hFP] at h

end ModelTree

theorem allNodesList_length_of_leaves {l : List Node}
    (h : ∀ c ∈ l, c.children = []) : (allNodesList l).length = l.length := by
  induction l with
  | nil => rfl
  | cons c rest ih =>
    have hc : c.children = [] := h c (List.mem_cons_self c rest)
    have hrest := ih (fun x hx => h x (List.mem_cons_of_mem c hx))
    simp [allNodesList, Node.allNodes_eq, hc, hrest]

/-! ### Claim theorems -/

/-- C2: in every built tree, a node whose depth has reached `MAX_DEPTH` has
no children (so every node's depth is at most `MAX_DEPTH`); and with
`MAX_DEPTH = 1` the tree has exactly `1 +` (number of directly accepted
fields) nodes and no grandchildren. -/
theorem C2_max_depth_boundary :
    (∀ (cfg : Config) (schema : Schema) (mid : Nat),
        ∀ n ∈ (ModelTree.init cfg schema mid).allNodes,
          cfg.MAX_DEPTH ≤ n.depth → n.children = []) ∧
    (∀ (cfg : Config) (schema : Schema) (mid : Nat),
        ∀ n ∈ (ModelTree.init cfg schema mid).allNodes,
          n.depth ≤ cfg.MAX_DEPTH) ∧
    (∀ (cfg : Config) (schema : Schema) (mid : Nat), cfg.MAX_DEPTH = 1 →
        (ModelTree.init cfg schema mid).allNodes.length =
          1 + ((schema.modelFields mid).filter
            (ModelTree.follow_this_field cfg schema mid none true
              (ModelTree.fieldPathOf []))).length ∧
        ∀ c ∈ (ModelTree.init cfg schema mid).children, c.children = []) := by
  refine ⟨?_, ?_, ?_⟩
  · intro cfg schema mid n hn hdep
    rcases ModelTree.mem_allNodes_build cfg schema cfg.MAX_DEPTH mid none [] 0
        (by omega) n hn with ⟨fuel', m', f', ns', d', rfl, _, _, _, _⟩
    rw [ModelTree.build_tree_depth] at hdep
    exact ModelTree.build_tree_children_stop _ _ _ _ _ _ _ (by omega)
  · intro cfg schema mid n hn
    rcases ModelTree.mem_allNodes_build cfg schema cfg.MAX_DEPTH mid none [] 0
        (by omega) n hn with ⟨fuel', m', f', ns', d', rfl, _, _, hmax, _⟩
    rw [Nat.max_zero] at hmax
    rw [ModelTree.build_tree_depth]
    exact hmax
  · intro cfg schema mid h1
    have hchildren :
        (ModelTree.init cfg schema mid).children =
          ((schema.modelFields mid).filter
            (ModelTree.follow_this_field cfg schema mid
              ((none : Option Field).map (fun x => x.fid))
              ([] : List String).isEmpty
              (ModelTree.fieldPathOf []))).map
            (fun g => ModelTree.build_tree cfg schema 0 (g.related_model.getD 0)
              (some g) ([] ++ [g.name]) (0 + 1)) := by
      show (ModelTree.build_tree cfg schema cfg.MAX_DEPTH mid none [] 0).children = _
      rw [h1]
      exact ModelTree.build_tree_children_go cfg schema 0 mid none [] 0 (by omega)
    simp only [Option.map_none', List.isEmpty_nil] at hchildren
    have hleaves : ∀ c ∈ (ModelTree.init cfg schema mid).children, c.children = [] := by
      intro c hc
      rw [hchildren] at hc
      rcases List.mem_map.mp hc with ⟨g, _, rfl⟩
      exact ModelTree.build_tree_children_stop _ _ _ _ _ _ _ (by omega)
    refine ⟨?_, hleaves⟩
    rw [Node.allNodes_eq, List.length_cons]
    have hlen := allNodesList_length_of_leaves hleaves
    rw [hlen, hchildren, List.length_map]
    omega

/-- Witness for C2 at the documentation models: with the default
configuration no node of the `ModelOne` tree at full depth has children, the
depth bound holds for the root, and with `MAX_DEPTH := 1` the node count is
one plus the number of accepted root fields with no grandchildren. -/
theorem C2_max_depth_boundary_witness :
    (docTree.allNodes.getLastD docTree ∈ docTree.allNodes ∧
      default_config.MAX_DEPTH ≤ (docTree.allNodes.getLastD docTree).depth ∧
      (docTree.allNodes.getLastD docTree).children = []) ∧
    (docTree ∈ docTree.allNodes ∧ docTree.depth ≤ default_config.MAX_DEPTH) ∧
    (({ default_config with MAX_DEPTH := 1 } : Config).MAX_DEPTH = 1 ∧
      (ModelTree.init { default_config with MAX_DEPTH := 1 } docSchema 1).allNodes.length =
        1 + ((docSchema.modelFields 1).filter
          (ModelTree.follow_this_field { default_config with MAX_DEPTH := 1 } docSchema 1
            none true (ModelTree.fieldPathOf []))).length) :=
  ⟨⟨by decide, by decide,
      C2_max_depth_boundary.1 default_config docSchema 1 _ (by decide) (by decide)⟩,
   ⟨by decide, C2_max_depth_boundary.2.1 default_config docSchema 1 docTree (by decide)⟩,
   ⟨rfl, (C2_max_depth_boundary.2.2 { default_config with MAX_DEPTH := 1 } docSchema 1
      rfl).1⟩⟩

/-- C3: provided the schema's `remote_field` assignment is involutive (as it
is for Django's field/rel pairs), a built tree never walks straight back
along the relationship it just came from: a child's field is never the
mirror of the node's incoming field, and the incoming field is never the
mirror of the child's field. -/
theorem C3_no_backtracking (cfg : Config) (schema : Schema) (mid : Nat)
    (hinv : ∀ f ∈ schema.allFields, ∀ g ∈ schema.allFields,
      f.remote_field = some g.fid → g.remote_field = some f.fid) :
    ∀ n ∈ (ModelTree.init cfg schema mid).allNodes, ∀ c ∈ n.children,
      ∀ cf, c.field = some cf →
        cf.remote_field ≠ n.field.map (fun x => x.fid) ∧
        (∀ nf, n.field = some nf → nf.remote_field ≠ some cf.fid) := by
  intro n hn c hc cf hcf
  rcases ModelTree.mem_allNodes_build cfg schema cfg.MAX_DEPTH mid none [] 0
      (by omega) n hn with ⟨fuel', m', f', ns', d', rfl, hfd', _, _, hdisj⟩
  rcases ModelTree.mem_children_build cfg schema hfd' hc with ⟨g, hg, hfol, rfl⟩
  rw [ModelTree.build_tree_field] at hcf
  injection hcf with hcf
  subst hcf
  rcases ModelTree.follow_this_field_spec hfol with ⟨_, hrem, _, _⟩
  rw [ModelTree.build_tree_field]
  have h1 : g.remote_field ≠ f'.map (fun x => x.fid) := by
    intro he
    rw [he, beq_self_eq_true] at hrem
    simp at hrem
  refine ⟨h1, ?_⟩
  intro nf hnf hmirror
  have hnf_mem : nf ∈ schema.allFields := by
    rcases hdisj with ⟨hf', _, _, _⟩ | ⟨g', hf', hg'⟩
    · rw [hf'] at hnf; cases hnf
    · rw [hf'] at hnf; injection hnf with hnf; rw [← hnf]; exact hg'
  have hg_mem : g ∈ schema.allFields :=
    ModelTree.mem_allFields_of_mem_modelFields schema hg
  have := hinv nf hnf_mem g hg_mem hmirror
  apply h1
  rw [this, hnf]
  rfl

/-- Witness for C3: the documentation schema is involutive; at the root of
its tree (incoming field `None`) the `model_two` child's field is not
followed back. -/
theorem C3_no_backtracking_witness :
    (∀ f ∈ docSchema.allFields, ∀ g ∈ docSchema.allFields,
        f.remote_field = some g.fid → g.remote_field = some f.fid) ∧
    docTree ∈ docTree.allNodes ∧
    docTree.children.getLastD docTree ∈ docTree.children ∧
    ∀ cf, (docTree.children.getLastD docTree).field = some cf →
      cf.remote_field ≠ docTree.field.map (fun x => x.fid) ∧
      (∀ nf, docTree.field = some nf → nf.remote_field ≠ some cf.fid) :=
  ⟨by decide, by decide, by decide,
   C3_no_backtracking default_config docSchema 1 (by decide) docTree (by decide)
     (docTree.children.getLastD docTree) (by decide)⟩

/-- Counterexample to C4: `_follow_this_field` has no reverse-side
self-relation check.  In the tree over a model with a self-referential
`OneToOneField` (as `ModelB.model_b` in the repository's test app), the
reverse accessor `modelb` — a reverse-side field relating the root model to
itself — does produce a child of the root, so it is not true that every
reverse-side self-relation candidate is skipped. -/
theorem C4_reverse_self_relation_counterexample :
    ¬ ∀ n ∈ selfRelTree.allNodes, ∀ c ∈ n.children,
        (c.field.all
          (fun cf => !(cf.isReverseSide && cf.related_model == some n.model))) = true := by
  decide

/-- C4 amended: a reverse-side self-relation candidate is not skipped
unconditionally; it is only skipped when it is the mirror of the field that
reached the current node (the generic back-reference check), and otherwise
can produce a child node — as the second conjunct exhibits on the
self-relation schema, where the reverse accessor `modelb` becomes a child
of the root. -/
theorem C4_reverse_self_relation_amended :
    (∀ (cfg : Config) (schema : Schema) (mid : Nat),
        ∀ n ∈ (ModelTree.init cfg schema mid).allNodes, ∀ c ∈ n.children,
          ∀ cf, c.field = some cf → cf.isReverseSide = true →
            cf.related_model = some n.model →
            cf.remote_field ≠ n.field.map (fun x => x.fid)) ∧
    (selfRelTree.children.map
        (fun c => ((c.field.map Field.isReverseSide).getD false,
                   (c.field.map Field.related_model).getD none)) =
      [(false, some 0), (true, some 0)] ∧ selfRelTree.model = 0) := by
  constructor
  · intro cfg schema mid n hn c hc cf hcf _ _
    rcases ModelTree.mem_allNodes_build cfg schema cfg.MAX_DEPTH mid none [] 0
        (by omega) n hn with ⟨fuel', m', f', ns', d', rfl, hfd', _, _, _⟩
    rcases ModelTree.mem_children_build cfg schema hfd' hc with ⟨g, _, hfol, rfl⟩
    rw [ModelTree.build_tree_field] at hcf
    injection hcf with hcf
    subst hcf
    rcases ModelTree.follow_this_field_spec hfol with ⟨_, hrem, _, _⟩
    rw [ModelTree.build_tree_field]
    intro he
    rw [he, beq_self_eq_true] at hrem
    simp at hrem
  · exact ⟨by decide, by decide⟩

/-- Witness for the amended C4 at the self-relation schema: the reverse
accessor child of the root is not the mirror of the (absent) incoming
field. -/
theorem C4_reverse_self_relation_witness :
    selfRelTree ∈ selfRelTree.allNodes ∧
    selfRelTree.children.getLastD selfRelTree ∈ selfRelTree.children ∧
    ∀ cf, (selfRelTree.children.getLastD selfRelTree).field = some cf →
      cf.isReverseSide = true → cf.related_model = some selfRelTree.model →
      cf.remote_field ≠ selfRelTree.field.map (fun x => x.fid) :=
  ⟨by decide, by decide,
   C4_reverse_self_relation_amended.1 { default_config with MAX_DEPTH := 1 }
     selfRelSchema 0 selfRelTree (by decide)
     (selfRelTree.children.getLastD selfRelTree) (by decide)⟩

/-- C5: when a non-empty path allow-list is configured, every child edge of
the built tree carries a field whose `this_path` is a member of the
prefix-expanded allow-list; and configuring `FIELD_PATHS = ["a__b__c"]` on
the chain schema yields exactly the nodes `root`, `a`, `a__b`, `a__b__c`
with no sibling branches. -/
theorem C5_path_allowlist :
    (∀ (cfg : Config) (schema : Schema) (mid : Nat), cfg.FIELD_PATHS ≠ [] →
        ∀ n ∈ (ModelTree.init cfg schema mid).allNodes, ∀ c ∈ n.children,
          ∃ g, c.field = some g ∧
            (ModelTree.allowed_paths cfg.FIELD_PATHS).contains
              (ModelTree.this_path n.names.isEmpty n.field_path g) = true) ∧
    abcTree.allNodes.map Node.field_path = ["root", "a", "a__b", "a__b__c"] := by
  constructor
  · intro cfg schema mid hFP n hn c hc
    rcases ModelTree.mem_allNodes_build cfg schema cfg.MAX_DEPTH mid none [] 0
        (by omega) n hn with ⟨fuel', m', f', ns', d', rfl, hfd', _, _, _⟩
    rcases ModelTree.mem_children_build cfg schema hfd' hc with ⟨g, _, hfol, rfl⟩
    rcases ModelTree.follow_this_field_spec hfol with ⟨_, _, _, hpath⟩
    refine ⟨g, ModelTree.build_tree_field _ _ _ _ _ _ _, ?_⟩
    have := hpath hFP
    rw [ModelTree.follow_this_path] at this
    rw [ModelTree.build_tree_names, Node.field_path, ModelTree.build_tree_names]
    exact this
  · decide

/-- Witness for C5 at the chain schema with `FIELD_PATHS = ["a__b__c"]`: the
root's single child edge `a` produces a path in the expanded allow-list. -/
theorem C5_path_allowlist_witness :
    abcConfig.FIELD_PATHS ≠ [] ∧
    abcTree ∈ abcTree.allNodes ∧
    abcTree.children.getLastD abcTree ∈ abcTree.children ∧
    ∃ g, (abcTree.children.getLastD abcTree).field = some g ∧
      (ModelTree.allowed_paths abcConfig.FIELD_PATHS).contains
        (ModelTree.this_path abcTree.names.isEmpty abcTree.field_path g) = true :=
  ⟨by decide, by decide, by decide,
   C5_path_allowlist.1 abcConfig abcSchema 0 (by decide) abcTree (by decide)
     (abcTree.children.getLastD abcTree) (by decide)⟩

theorem get_some_ne_empty (t : Node) (fp : String) (filter : Option (Node → Bool))
    (params : List (ModelTree.Attr × ModelTree.AttrVal)) (h : fp ≠ "") :
    ModelTree.get t (some fp) filter params =
      AnyTree.find t (fun n => n.field_path == fp) := by
  have hb : (fp == "") = false := by
    cases hb : (fp == "")
    · rfl
    · exact absurd (by simpa using hb) h
  simp [ModelTree.get, hb]

theorem filter_path_single {l : List Node} {n : Node} (hmem : n ∈ l)
    (huniq : l.Pairwise (fun a b => a.field_path ≠ b.field_path)) :
    l.filter (fun m => m.field_path == n.field_path) = [n] := by
  induction l with
  | nil => cases hmem
  | cons a rest ih =>
    rcases List.pairwise_cons.mp huniq with ⟨hhead, htail⟩
    rcases List.mem_cons.mp hmem with rfl | hmem'
    · rw [List.filter_cons_of_pos (by simp)]
      have hnil : rest.filter (fun m => m.field_path == n.field_path) = [] := by
        rw [List.filter_eq_nil_iff]
        intro m hm
        simpa using (hhead m hm).symm
      rw [hnil]
    · rw [List.filter_cons_of_neg (by simpa using hhead n hmem'), ih hmem' htail]

/-- Counterexample to C1: a model may legally declare a relation field named
`root` (Django has no check against it).  Then the root node and its child
share the `field_path` value `"root"`, and looking the root up by its own
`field_path` raises `CountError` instead of returning the root. -/
theorem C1_lookup_roundtrip_counterexample :
    rootFieldTree ∈ rootFieldTree.allNodes ∧
    rootFieldTree.field_path = "root" ∧
    ModelTree.get rootFieldTree (some rootFieldTree.field_path) none [] =
      AnyTree.FindResult.countError := by
  decide

/-- C1 amended: looking a node up by its own `field_path` returns that very
node provided the tree satisfies the path-uniqueness identity invariant (no
two nodes share a `field_path` — which can fail, e.g. for a relation field
literally named `root`) and the node's path is a non-empty string. -/
theorem C1_lookup_roundtrip_amended (t n : Node) (hmem : n ∈ t.allNodes)
    (huniq : t.allNodes.Pairwise (fun a b => a.field_path ≠ b.field_path))
    (hne : n.field_path ≠ "") :
    ModelTree.get t (some n.field_path) none [] = .found n := by
  rw [get_some_ne_empty t _ none [] hne]
  unfold AnyTree.find AnyTree.findall
  rw [filter_path_single hmem huniq]

/-- Witness for the amended C1 at the documentation tree (whose five
`field_path`s are pairwise distinct), looking up the root node. -/
theorem C1_lookup_roundtrip_witness :
    docTree ∈ docTree.allNodes ∧
    docTree.allNodes.Pairwise (fun a b => a.field_path ≠ b.field_path) ∧
    docTree.field_path ≠ "" ∧
    ModelTree.get docTree (some docTree.field_path) none [] = .found docTree :=
  ⟨by decide, by decide, by decide,
   C1_lookup_roundtrip_amended docTree docTree (by decide) (by decide) (by decide)⟩

/-- C8 is a code bug: the filter lambdas appended in the params loop of
`get`/`find` late-bind the loop variables, so each of them tests the last
attribute-value pair.  Evaluating the embedded code at the failing input
`get(model=ModelTwo, depth=2)` over the documentation tree: the code
returns the depth-2 node `model_two__model_three`, whose model is
`ModelThree` (id 3), not `ModelTwo` (id 2) — although, as the last conjunct
shows, no node of the tree satisfies the claimed conjunction of both pairs
(the claimed result is "no match").  `find` returns the same single node. -/
theorem C8_conjunction_bug_evaluated :
    (ModelTree.get docTree none none
        [(.model, .mid 2), (.depth, .nat 2)]).pathOf = some "model_two__model_three" ∧
    (ModelTree.get docTree none none
        [(.model, .mid 2), (.depth, .nat 2)]).modelOf = some 3 ∧
    (ModelTree.find docTree none
        [(.model, .mid 2), (.depth, .nat 2)]).map Node.field_path =
      ["model_two__model_three"] ∧
    (docTree.allNodes.filter
        (fun n => ModelTree.getattr n .model == .mid 2 &&
                  ModelTree.getattr n .depth == .nat 2)).isEmpty = true := by
  decide

/-- C9: a unique lookup by predicate/attribute criteria raises the distinct
`CountError` when more than one node matches the built filter, and returns
`None` (not an error) when no node matches. -/
theorem C9_get_ambiguous_and_absent (t : Node) (filter : Option (Node → Bool))
    (params : List (ModelTree.Attr × ModelTree.AttrVal)) :
    (2 ≤ (AnyTree.findall t (ModelTree.paramsFilter params filter)).length →
      ModelTree.get t none filter params = .countError) ∧
    ((AnyTree.findall t (ModelTree.paramsFilter params filter)).length = 0 →
      ModelTree.get t none filter params = .notFound) := by
  have hfind : ModelTree.get t none filter params =
      AnyTree.find t (ModelTree.paramsFilter params filter) := rfl
  rcases hl : AnyTree.findall t (ModelTree.paramsFilter params filter) with
    _ | ⟨a, _ | ⟨b, rest⟩⟩
  · refine ⟨fun h => ?_, fun _ => ?_⟩
    · simp at h
    · rw [hfind]; unfold AnyTree.find; rw [hl]
  · refine ⟨fun h => ?_, fun h => ?_⟩
    · simp at h
    · simp at h
  · refine ⟨fun _ => ?_, fun h => ?_⟩
    · rw [hfind]; unfold AnyTree.find; rw [hl]
    · simp at h

/-- Witness for C9 at the documentation tree: a filter matching the two
depth-3 nodes raises `CountError`; a params lookup for a non-existent
`field_path` returns `None`. -/
theorem C9_get_ambiguous_and_absent_witness :
    (2 ≤ (AnyTree.findall docTree
        (ModelTree.paramsFilter [] (some (fun n => n.depth == 3)))).length ∧
      ModelTree.get docTree none (some (fun n => n.depth == 3)) [] = .countError) ∧
    ((AnyTree.findall docTree
        (ModelTree.paramsFilter [(.field_path, .str "nope")] none)).length = 0 ∧
      ModelTree.get docTree none none [(.field_path, .str "nope")] = .notFound) :=
  ⟨⟨by decide,
    (C9_get_ambiguous_and_absent docTree (some (fun n => n.depth == 3)) []).1 (by decide)⟩,
   ⟨by decide,
    (C9_get_ambiguous_and_absent docTree none [(.field_path, .str "nope")]).2 (by decide)⟩⟩

/-- C10: a truthy (non-empty) `field_path` argument makes `get` overwrite
the filter entirely, so any simultaneously supplied predicate or
attribute-value parameters are ignored: the result equals that of calling
`get` with the `field_path` alone. -/
theorem C10_field_path_overrides (t : Node) (fp : String)
    (filter : Option (Node → Bool)) (params : List (ModelTree.Attr × ModelTree.AttrVal))
    (h : fp ≠ "") :
    ModelTree.get t (some fp) filter params = ModelTree.get t (some fp) none [] := by
  rw [get_some_ne_empty t fp filter params h, get_some_ne_empty t fp none [] h]

/-- Witness for C10: a `get` by path `model_two` with an always-false filter
and an unsatisfiable params pair still returns what the bare path lookup
returns. -/
theorem C10_field_path_overrides_witness :
    "model_two" ≠ "" ∧
    ModelTree.get docTree (some "model_two") (some (fun _ => false))
        [(.depth, .nat 99)] =
      ModelTree.get docTree (some "model_two") none [] :=
  ⟨by decide,
   C10_field_path_overrides docTree "model_two" (some (fun _ => false))
     [(.depth, .nat 99)] (by decide)⟩

/-! ### Lemmas about the lazily memoised `items` property -/

theorem items_read_nil (store : Store) (schema : Schema) (tree : Node)
    (s : ItemsState) :
    items_read store schema tree [] s = (s.cache [], s) := by
  rw [items_read]
  split
  · rfl
  · split
    · rfl
    · rfl

theorem items_read_noop_invalid {store : Store} {schema : Schema} {tree : Node}
    {raddr : List Nat} {s : ItemsState}
    (hat : tree.at? raddr.reverse = none) :
    items_read store schema tree raddr s = (s.cache raddr, s) := by
  rw [items_read, hat]

theorem items_read_noop_guard {store : Store} {schema : Schema} {tree : Node}
    {raddr : List Nat} {s : ItemsState} {node : Node}
    (hat : tree.at? raddr.reverse = some node)
    (hguard : ¬ (s.cache raddr = none ∧ ¬ s.cache [] = none)) :
    items_read store schema tree raddr s = (s.cache raddr, s) := by
  rw [items_read, hat]
  simp [hguard]

theorem items_read_compute {store : Store} {schema : Schema} {tree : Node}
    {i : Nat} {parent : List Nat} {s : ItemsState} {node : Node}
    (hat : tree.at? (i :: parent).reverse = some node)
    (hguard : s.cache (i :: parent) = none ∧ ¬ s.cache [] = none) :
    ∃ v, items_read store schema tree (i :: parent) s =
      (some v,
        (items_read store schema tree parent s).2.store_result (i :: parent) v) :=
  ⟨store.filter_distinct node.model
      ((match node.field with
        | some f => schema.fieldName (f.remote_field.getD 0)
        | none => "") ++ "__pk__in")
      ((items_read store schema tree parent s).1.getD []),
    by rw [items_read, hat]; simp [hguard]⟩

/-- One `items` access either leaves a node's cache and fetch count
untouched, or fills a previously empty cache with a fetched value, bumping
its counter by one; and it never touches any address longer than the one
being read. -/
theorem items_read_effects (store : Store) (schema : Schema) (tree : Node) :
    ∀ (raddr : List Nat) (s : ItemsState) (a : List Nat),
      (((items_read store schema tree raddr s).2.cache a = s.cache a ∧
        (items_read store schema tree raddr s).2.fetches a = s.fetches a) ∨
       (s.cache a = none ∧
        (items_read store schema tree raddr s).2.cache a ≠ none ∧
        (items_read store schema tree raddr s).2.fetches a = s.fetches a + 1)) ∧
      (raddr.length < a.length →
        (items_read store schema tree raddr s).2.cache a = s.cache a ∧
        (items_read store schema tree raddr s).2.fetches a = s.fetches a) := by
  intro raddr
  induction raddr with
  | nil =>
    intro s a
    rw [items_read_nil]
    exact ⟨Or.inl ⟨rfl, rfl⟩, fun _ => ⟨rfl, rfl⟩⟩
  | cons i parent ih =>
    intro s a
    cases hat : tree.at? (i :: parent).reverse with
    | none =>
      rw [items_read_noop_invalid hat]
      exact ⟨Or.inl ⟨rfl, rfl⟩, fun _ => ⟨rfl, rfl⟩⟩
    | some node =>
      by_cases hguard : s.cache (i :: parent) = none ∧ ¬ s.cache [] = none
      · rcases items_read_compute hat hguard with ⟨v, hv⟩
        rw [hv]
        rcases ih s a with ⟨hcases, hlong⟩
        constructor
        · by_cases ha : a = i :: parent
          · subst ha
            have huntouched := hlong (by simp)
            right
            refine ⟨hguard.1, ?_, ?_⟩
            · simp [ItemsState.store_result]
            · simp [ItemsState.store_result, huntouched.2]
          · rcases hcases with h | h
            · exact Or.inl ⟨by simp [ItemsState.store_result, ha, h.1],
                by simp [ItemsState.store_result, ha, h.2]⟩
            · exact Or.inr ⟨h.1, by simp [ItemsState.store_result, ha]; exact h.2.1,
                by simp [ItemsState.store_result, ha, h.2.2]⟩
        · intro hlen
          have ha : a ≠ i :: parent := by
            intro he; rw [he] at hlen; omega
          have huntouched := hlong (by simp at hlen ⊢; omega)
          exact ⟨by simp [ItemsState.store_result, ha, huntouched.1],
            by simp [ItemsState.store_result, ha, huntouched.2]⟩
      · rw [items_read_noop_guard hat hguard]
        exact ⟨Or.inl ⟨rfl, rfl⟩, fun _ => ⟨rfl, rfl⟩⟩

/-- One access preserves "each node has been fetched at most once, and a
fetched node has a filled cache". -/
theorem items_read_fetchInv {store : Store} {schema : Schema} {tree : Node}
    {raddr : List Nat} {s : ItemsState}
    (h : ∀ a, s.fetches a ≤ 1 ∧ (1 ≤ s.fetches a → s.cache a ≠ none)) :
    ∀ a, (items_read store schema tree raddr s).2.fetches a ≤ 1 ∧
      (1 ≤ (items_read store schema tree raddr s).2.fetches a →
        (items_read store schema tree raddr s).2.cache a ≠ none) := by
  intro a
  rcases (items_read_effects store schema tree raddr s a).1 with ⟨hc, hf⟩ | ⟨hc0, hcn, hf⟩
  · rw [hf, hc]; exact h a
  · have hzero : s.fetches a = 0 := by
      by_contra hne
      exact absurd hc0 ((h a).2 (by omega))
    rw [hf, hzero]
    exact ⟨by omega, fun _ => hcn⟩

theorem runReads_fetchInv (store : Store) (schema : Schema) (tree : Node) :
    ∀ (reads : List (List Nat)) (s : ItemsState),
      (∀ a, s.fetches a ≤ 1 ∧ (1 ≤ s.fetches a → s.cache a ≠ none)) →
      ∀ a, (runReads store schema tree reads s).fetches a ≤ 1 ∧
        (1 ≤ (runReads store schema tree reads s).fetches a →
          (runReads store schema tree reads s).cache a ≠ none) := by
  intro reads
  induction reads with
  | nil => intro s h a; exact h a
  | cons r rest ih =>
    intro s h a
    exact ih _ (items_read_fetchInv h) a

/-- After an access, the accessed node's cache holds exactly the returned
value (`return self._items` after the optional assignment). -/
theorem items_read_post (store : Store) (schema : Schema) (tree : Node)
    (raddr : List Nat) (s : ItemsState) :
    (items_read store schema tree raddr s).2.cache raddr =
      (items_read store schema tree raddr s).1 := by
  cases raddr with
  | nil => rw [items_read_nil]
  | cons i parent =>
    cases hat : tree.at? (i :: parent).reverse with
    | none => rw [items_read_noop_invalid hat]
    | some node =>
      by_cases hguard : s.cache (i :: parent) = none ∧ ¬ s.cache [] = none
      · rcases items_read_compute hat hguard with ⟨v, hv⟩
        rw [hv]
        simp [ItemsState.store_result]
      · rw [items_read_noop_guard hat hguard]

theorem items_read_cache_mono {store : Store} {schema : Schema} {tree : Node}
    {raddr : List Nat} {s : ItemsState} {a : List Nat} {v : List Nat}
    (h : s.cache a = some v) :
    (items_read store schema tree raddr s).2.cache a = some v := by
  rcases (items_read_effects store schema tree raddr s a).1 with ⟨hc, _⟩ | ⟨hc0, _, _⟩
  · rw [hc]; exact h
  · rw [h] at hc0; cases hc0

theorem runReads_cache_mono (store : Store) (schema : Schema) (tree : Node) :
    ∀ (reads : List (List Nat)) (s : ItemsState) (a : List Nat) (v : List Nat),
      s.cache a = some v →
      (runReads store schema tree reads s).cache a = some v := by
  intro reads
  induction reads with
  | nil => intro s a v h; exact h
  | cons r rest ih =>
    intro s a v h
    exact ih _ a v (items_read_cache_mono h)

/-- Reading a node whose `_items` is already filled returns the cached value
and leaves the state untouched. -/
theorem items_read_cached {store : Store} {schema : Schema} {tree : Node}
    {raddr : List Nat} {s : ItemsState} {v : List Nat}
    (h : s.cache raddr = some v) :
    items_read store schema tree raddr s = (some v, s) := by
  cases raddr with
  | nil => rw [items_read_nil, h]
  | cons i parent =>
    cases hat : tree.at? (i :: parent).reverse with
    | none => rw [items_read_noop_invalid hat, h]
    | some node =>
      rw [items_read_noop_guard hat (fun hg => by rw [h] at hg; cases hg.1), h]

theorem items_read_invalid_untouched {store : Store} {schema : Schema} {tree : Node}
    {a : List Nat} (hinv : tree.at? a.reverse = none) :
    ∀ (raddr : List Nat) (s : ItemsState),
      (items_read store schema tree raddr s).2.cache a = s.cache a := by
  intro raddr
  induction raddr with
  | nil => intro s; rw [items_read_nil]
  | cons i parent ih =>
    intro s
    cases hat : tree.at? (i :: parent).reverse with
    | none => rw [items_read_noop_invalid hat]
    | some node =>
      by_cases hguard : s.cache (i :: parent) = none ∧ ¬ s.cache [] = none
      · rcases items_read_compute hat hguard with ⟨v, hv⟩
        rw [hv]
        have hne : a ≠ i :: parent := by
          intro he; rw [he, hat] at hinv; cases hinv
        simp [ItemsState.store_result, hne, ih s]
      · rw [items_read_noop_guard hat hguard]

theorem runReads_invalid_untouched {store : Store} {schema : Schema} {tree : Node}
    {a : List Nat} (hinv : tree.at? a.reverse = none) :
    ∀ (reads : List (List Nat)) (s : ItemsState),
      (runReads store schema tree reads s).cache a = s.cache a := by
  intro reads
  induction reads with
  | nil => intro s; rfl
  | cons r rest ih =>
    intro s
    show (runReads store schema tree rest (items_read store schema tree r s).2).cache a = _
    rw [ih, items_read_invalid_untouched hinv]

/-- When the root's `_items` is filled, an access can only return `None` for
an address that does not exist in the tree (and whose cache is empty). -/
theorem items_read_value_none {store : Store} {schema : Schema} {tree : Node}
    {raddr : List Nat} {s : ItemsState}
    (hroot : ¬ s.cache [] = none)
    (hnone : (items_read store schema tree raddr s).1 = none) :
    tree.at? raddr.reverse = none ∧ s.cache raddr = none := by
  cases raddr with
  | nil =>
    rw [items_read_nil] at hnone
    exact absurd hnone hroot
  | cons i parent =>
    cases hat : tree.at? (i :: parent).reverse with
    | none =>
      rw [items_read_noop_invalid hat] at hnone
      exact ⟨rfl, hnone⟩
    | some node =>
      exfalso
      by_cases hguard : s.cache (i :: parent) = none ∧ ¬ s.cache [] = none
      · rcases items_read_compute hat hguard with ⟨v, hv⟩
        rw [hv] at hnone
        cases hnone
      · rw [items_read_noop_guard hat hguard] at hnone
        exact hguard ⟨hnone, hroot⟩

/-- Once a node's `items` has been read, any later read — with arbitrary
interleaved reads of other nodes — returns the same value. -/
theorem items_read_stable (store : Store) (schema : Schema) (tree : Node)
    (raddr : List Nat) (s : ItemsState) (hroot : ¬ s.cache [] = none)
    (reads2 : List (List Nat)) :
    (items_read store schema tree raddr
        (runReads store schema tree reads2
          (items_read store schema tree raddr s).2)).1 =
      (items_read store schema tree raddr s).1 := by
  cases hv : (items_read store schema tree raddr s).1 with
  | some v =>
    have hc : (items_read store schema tree raddr s).2.cache raddr = some v := by
      rw [items_read_post]; exact hv
    have hc2 := runReads_cache_mono store schema tree reads2 _ raddr v hc
    rw [items_read_cached hc2]
  | none =>
    rcases items_read_value_none hroot hv with ⟨hinv, _⟩
    have hc1 : (items_read store schema tree raddr s).2.cache raddr = none := by
      rw [items_read_post]; exact hv
    rw [items_read_noop_invalid hinv, runReads_invalid_untouched hinv, hc1]

theorem items_read_root_none {store : Store} {schema : Schema} {tree : Node}
    {raddr : List Nat} {s : ItemsState} (h : s.cache [] = none) :
    items_read store schema tree raddr s = (s.cache raddr, s) := by
  cases raddr with
  | nil => rw [items_read_nil]
  | cons i parent =>
    cases hat : tree.at? (i :: parent).reverse with
    | none => exact items_read_noop_invalid hat
    | some node => exact items_read_noop_guard hat (fun hg => hg.2 h)

theorem runReads_root_none (store : Store) (schema : Schema) (tree : Node) :
    ∀ (reads : List (List Nat)) (s : ItemsState), s.cache [] = none →
      runReads store schema tree reads s = s := by
  intro reads
  induction reads with
  | nil => intro s _; rfl
  | cons r rest ih =>
    intro s h
    show runReads store schema tree rest (items_read store schema tree r s).2 = s
    rw [items_read_root_none h]
    exact ih s h

/-- C6: for a tree built with an initial record collection, after any
sequence of `items` accesses no node has been fetched from the store more
than once, and re-reading a node — even with arbitrary other reads in
between — returns exactly the value its first read produced. -/
theorem C6_items_memoised (store : Store) (schema : Schema) (tree : Node)
    (items0 : List Nat) (reads reads2 : List (List Nat)) (raddr : List Nat) :
    (runReads store schema tree reads (ItemsState.init (some items0))).fetches raddr ≤ 1 ∧
    (items_read store schema tree raddr
        (runReads store schema tree reads2
          (items_read store schema tree raddr
            (runReads store schema tree reads (ItemsState.init (some items0)))).2)).1 =
      (items_read store schema tree raddr
        (runReads store schema tree reads (ItemsState.init (some items0)))).1 := by
  constructor
  · exact (runReads_fetchInv store schema tree reads _
      (fun a => ⟨by simp [ItemsState.init], fun h => by simp [ItemsState.init] at h⟩)
      raddr).1
  · apply items_read_stable
    have hr : (runReads store schema tree reads
        (ItemsState.init (some items0))).cache [] = some items0 :=
      runReads_cache_mono store schema tree reads _ [] items0 (by simp [ItemsState.init])
    rw [hr]
    exact fun h => by cases h

/-- C7: for a tree built without an initial record collection, the `items`
accessor of every node returns `None` after any sequence of accesses, and
record propagation never runs (no store fetch is ever made). -/
theorem C7_no_items_no_propagation (store : Store) (schema : Schema) (tree : Node)
    (reads : List (List Nat)) (raddr : List Nat) :
    (items_read store schema tree raddr
        (runReads store schema tree reads (ItemsState.init none))).1 = none ∧
    (runReads store schema tree reads (ItemsState.init none)).fetches raddr = 0 := by
  have h0 : (ItemsState.init (none : Option (List Nat))).cache [] = none := by
    simp [ItemsState.init]
  rw [runReads_root_none store schema tree reads _ h0]
  constructor
  · rw [items_read_root_none h0]
    simp [ItemsState.init]
  · rfl

end Modeltree
